import Mathlib

/-!
Shallow embedding of the quiz/assessment core of the Gyan-setu backend
(`src/services/Quiz.service.ts` together with the variant carrying
sync-status handling, `src/models/quiz/Quiz.model.ts`,
`src/models/Progress.model.ts`, `src/validation/schemas/Quiz.schema.ts`
and the quiz routes), followed by theorems checking the specification's
claims about it.

Modelling conventions:
* Mongo `ObjectId`s are strings; `o._id.toString()` is the field itself.
* JS numbers are rationals (`ℚ`); the values involved are sums, products
  and exact divisions of small integers.
* `Date` values are naturals (milliseconds since epoch); `new Date()` is
  an explicit `now` parameter threaded into the stateful operations.
* `undefined`-able values are `Option`s; JS `===` on two possibly
  undefined strings is `Option` equality (`undefined === undefined` is
  true); JS truthiness of a number (`x || y`) is `if x = 0 then y else x`.
* The Mongo collections are lists; `findById`/`findOne` are `List.find?`,
  a `save` of a progress document replaces the matching record (or
  appends when new).
-/

namespace GyanSetu

/-- Multilingual text object: mandatory English, optional Hindi/Punjabi
(`IMultilingual` in `Quiz.model.ts`). -/
structure Multilingual where
  en : String
  hi : Option String := none
  pa : Option String := none
deriving Repr, DecidableEq

/-- A question option (`IOption` in `Quiz.model.ts`): subdocument id,
display text, optional image and the answer-key flag. -/
structure QOption where
  _id : String
  text : Multilingual
  imageKey : Option String := none
  isCorrect : Bool
deriving Repr, DecidableEq

/-- The four question types of the quiz schema. -/
inductive QuestionType
  | multiple_choice
  | true_false
  | fill_blank
  | image_choice
deriving Repr, DecidableEq

/-- A quiz question (`IQuestion` in `Quiz.model.ts`). -/
structure Question where
  _id : String
  type : QuestionType
  question : Multilingual
  imageKey : Option String := none
  options : List QOption := []
  correctAnswer : Option Multilingual := none
  explanation : Option Multilingual := none
  points : ℚ := 1
  order : Option ℚ := none
deriving Repr, DecidableEq

/-- A quiz document (`IQuiz` in `Quiz.model.ts`); fields irrelevant to
every claim (presentation flags, timestamps, embedded analytics cache)
are carried where a claim mentions them and omitted otherwise. -/
structure Quiz where
  _id : String
  title : Multilingual
  description : Option Multilingual := none
  lessonId : Option String := none
  subject : String
  «class» : ℚ
  timeLimit : Option ℚ := none
  passingScore : ℚ := 60
  attemptsAllowed : ℚ := -1
  questions : List Question := []
  totalPoints : ℚ
  createdBy : String
  isPublished : Bool := false
  isActive : Bool := true
  isDeleted : Bool := false
deriving Repr, DecidableEq

/-- One entry of the submitted `answers` array
(`submissionData.answers` in `submitQuizAttempt`). -/
structure AnswerInput where
  questionId : String
  selectedOption : Option String := none
  answer : Option String := none
deriving Repr, DecidableEq

/-- One per-question graded result as returned in `results` by
`submitQuizAttempt`. -/
structure GradedAnswer where
  questionId : String
  selectedOption : Option String
  answer : Option String
  isCorrect : Bool
  points : ℚ
  explanation : Option Multilingual
deriving Repr, DecidableEq

/-- The normalization `s.trim().toLowerCase()` applied to both sides of
the fill-in-the-blank comparison. -/
def normalizeAnswer (s : String) : String :=
  s.trim.toLower

/-- The sum `questions.reduce((sum, q) => sum + (q.points || 0), 0)`
(`q.points || 0` coincides with `q.points` since a missing `points`
defaults to `1` in the schema and `0 || 0 = 0`). -/
def sumPoints (qs : List Question) : ℚ :=
  qs.foldl (fun sum q => sum + q.points) 0

/-- The per-question grading step of `submitQuizAttempt`
(`Quiz.service.ts` lines 98–131): locate the caller's answer by question
id, dispatch on the question type, earn `question.points` when correct. -/
def gradeQuestion (answers : List AnswerInput) (q : Question) : GradedAnswer :=
  let userAnswer := answers.find? (fun a => a.questionId == q._id)
  let graded : Bool × ℚ :=
    match userAnswer with
    | none => (false, 0)
    | some ua =>
      match q.type with
      | .multiple_choice | .true_false | .image_choice =>
        match q.options.find? (fun o => some o._id == ua.selectedOption) with
        | some o => if o.isCorrect then (true, q.points) else (false, 0)
        | none => (false, 0)
      | .fill_blank =>
        if ua.answer.map normalizeAnswer
            == q.correctAnswer.map (fun c => normalizeAnswer c.en) then
          (true, q.points)
        else (false, 0)
  { questionId := q._id
    selectedOption := userAnswer.bind (fun ua => ua.selectedOption)
    answer := userAnswer.bind (fun ua => ua.answer)
    isCorrect := graded.1
    points := graded.2
    explanation := q.explanation }

/-- The `results` array of `submitQuizAttempt`: each question graded in
quiz order. -/
def gradeAll (quiz : Quiz) (answers : List AnswerInput) : List GradedAnswer :=
  quiz.questions.map (gradeQuestion answers)

/-- The `score` accumulator: `if (isCorrect) score += pointsEarned`. -/
def scoreOf (results : List GradedAnswer) : ℚ :=
  results.foldl (fun score r => if r.isCorrect then score + r.points else score) 0

/-- The expression `quiz.totalPoints || quiz.questions.reduce(...)`: the stored total,
recomputed from the questions when the stored value is `0` (JS falsy). -/
def effectiveTotalPoints (quiz : Quiz) : ℚ :=
  if quiz.totalPoints = 0 then sumPoints quiz.questions else quiz.totalPoints

/-- The expression `totalPoints > 0 ? (score / totalPoints) * 100 : 0`. -/
def percentageOf (score totalPoints : ℚ) : ℚ :=
  if 0 < totalPoints then score / totalPoints * 100 else 0

/-- The offline-sync state of a progress record
(`syncStatus` in `Progress.model.ts`). -/
inductive SyncStatus
  | synced
  | pending
  | conflict
deriving Repr, DecidableEq

/-- One stored per-question answer inside a recorded attempt
(the `answers` entries of `IQuizAttempt` in `Progress.model.ts`). -/
structure RecordedAnswer where
  questionId : String
  selectedOption : Option String
  answer : Option String
  isCorrect : Bool
  points : ℚ
deriving Repr, DecidableEq

/-- A recorded quiz attempt (`IQuizAttempt` in `Progress.model.ts`). -/
structure Attempt where
  quizId : String
  attemptNumber : ℕ
  score : ℚ
  totalPoints : ℚ
  percentage : ℚ
  passed : Bool
  answers : List RecordedAnswer
  startedAt : Option ℕ
  submittedAt : ℕ
  duration : Option ℤ
deriving Repr, DecidableEq

/-- A progress record (`IProgress` in `Progress.model.ts`), restricted to
the fields the quiz service reads or writes. -/
structure Progress where
  userId : String
  lessonId : String
  quizAttempts : List Attempt := []
  bestQuizScore : ℚ := 0
  syncStatus : SyncStatus := .synced
  lastSyncedAt : ℕ
  clientTimestamp : Option ℕ := none
deriving Repr, DecidableEq

/-- The backing store: the `Quiz` and `Progress` Mongo collections. -/
structure Store where
  quizzes : List Quiz := []
  progresses : List Progress := []
deriving Repr, DecidableEq

/-- The lookup `QuizModel.findById(quizId)`. -/
def lookupQuiz (store : Store) (quizId : String) : Option Quiz :=
  store.quizzes.find? (fun q => q._id == quizId)

/-- The lookup `ProgressModel.findOne(\x7b userId, lessonId \x7d)`. -/
def lookupProgress (store : Store) (userId lessonId : String) : Option Progress :=
  store.progresses.find? (fun p => p.userId == userId && p.lessonId == lessonId)

/-- The write `progress.save()`: replace the record for this `(userId, lessonId)`
key, or insert it when the record is new. -/
def saveProgress (ps : List Progress) (p : Progress) : List Progress :=
  if ps.any (fun q => q.userId == p.userId && q.lessonId == p.lessonId) then
    ps.map (fun q =>
      if q.userId == p.userId && q.lessonId == p.lessonId then p else q)
  else
    ps ++ [p]

/-- The record `new ProgressModel(...)` (userId, lessonId, empty attempt list) with the
schema defaults of `Progress.model.ts` (`bestQuizScore: 0`,
`syncStatus: 'synced'`, `lastSyncedAt: Date.now`). -/
def freshProgress (userId lessonId : String) (now : ℕ) : Progress :=
  { userId := userId
    lessonId := lessonId
    quizAttempts := []
    bestQuizScore := 0
    syncStatus := .synced
    lastSyncedAt := now
    clientTimestamp := none }

/-- The submission payload of `submitQuizAttempt`
(`answers`, optional `startedAt`, optional `clientTimestamp`). -/
structure Submission where
  answers : List AnswerInput
  startedAt : Option ℕ := none
  clientTimestamp : Option ℕ := none
deriving Repr, DecidableEq

/-- The plain object returned by `submitQuizAttempt`. -/
structure SubmitResult where
  quizId : String
  userId : String
  score : ℚ
  totalPoints : ℚ
  percentage : ℚ
  passed : Bool
  results : List GradedAnswer
  submittedAt : ℕ
deriving Repr, DecidableEq

/-- The progress-record update of `submitQuizAttempt` once the attempt
object is built: push the attempt, bump `bestQuizScore` when the new
percentage exceeds it, mark the record synced, stamp `lastSyncedAt`, and
store the client timestamp when one was supplied. -/
def pushAttempt (p : Progress) (attempt : Attempt) (now : ℕ)
    (clientTimestamp : Option ℕ) : Progress :=
  { p with
    quizAttempts := p.quizAttempts ++ [attempt]
    bestQuizScore :=
      if attempt.percentage > p.bestQuizScore then attempt.percentage
      else p.bestQuizScore
    syncStatus := .synced
    lastSyncedAt := now
    clientTimestamp :=
      match clientTimestamp with
      | some ct => some ct
      | none => p.clientTimestamp }

/-- The `submittedAt` value: the client timestamp when supplied, the server clock
otherwise. -/
def submittedAtOf (sub : Submission) (now : ℕ) : ℕ :=
  sub.clientTimestamp.getD now

/-- The plain graded object built by `submitQuizAttempt` before any
persistence: `results`, `score`, effective `totalPoints`, `percentage`
and `passed = percentage >= quiz.passingScore`. -/
def submitResultFor (quiz : Quiz) (quizId userId : String)
    (sub : Submission) (now : ℕ) : SubmitResult :=
  let results := gradeAll quiz sub.answers
  let score := scoreOf results
  let totalPoints := effectiveTotalPoints quiz
  { quizId := quizId
    userId := userId
    score := score
    totalPoints := totalPoints
    percentage := percentageOf score totalPoints
    passed := decide (percentageOf score totalPoints ≥ quiz.passingScore)
    results := results
    submittedAt := submittedAtOf sub now }

/-- The attempt object `submitQuizAttempt` records: the graded numbers,
the per-question answers projected onto the stored shape, and
`duration = floor((submittedAt - startedAt) / 1000)` when `startedAt`
was supplied. `attemptNumber` is passed in by the recording step. -/
def attemptFor (quiz : Quiz) (quizId : String) (sub : Submission) (now : ℕ)
    (attemptNumber : ℕ) : Attempt :=
  let r := submitResultFor quiz quizId "" sub now
  { quizId := quizId
    attemptNumber := attemptNumber
    score := r.score
    totalPoints := r.totalPoints
    percentage := r.percentage
    passed := r.passed
    answers := r.results.map (fun g =>
      { questionId := g.questionId
        selectedOption := g.selectedOption
        answer := g.answer
        isCorrect := g.isCorrect
        points := g.points })
    startedAt := sub.startedAt
    submittedAt := r.submittedAt
    duration := sub.startedAt.map (fun st =>
      ((r.submittedAt : ℤ) - (st : ℤ)).fdiv 1000) }

/-- The persistence step of `submitQuizAttempt`: nothing is stored when
the quiz has no lesson; otherwise the learner's progress record for the
quiz's lesson is loaded (or created), the attempt is appended with
`attemptNumber = count-of-prior-attempts-for-this-quiz + 1` — never taken
from the submission — and the record is saved. -/
def submitStoreAfter (store : Store) (quiz : Quiz) (quizId userId : String)
    (sub : Submission) (now : ℕ) : Store :=
  match quiz.lessonId with
  | none => store
  | some lessonId =>
    let progress := (lookupProgress store userId lessonId).getD
      (freshProgress userId lessonId now)
    let attemptNumber :=
      (progress.quizAttempts.filter (fun a => a.quizId == quizId)).length + 1
    let attempt := attemptFor quiz quizId sub now attemptNumber
    { store with
      progresses := saveProgress store.progresses
        (pushAttempt progress attempt now sub.clientTimestamp) }

/-- The operation `submitQuizAttempt(quizId, userId, submissionData)` from the quiz
service (the variant with offline-sync handling): load the quiz (error
when absent), grade every question, and when the quiz is tied to a
lesson append the attempt to the learner's progress record, creating the
record on first use. Returns the graded result together with the updated
store. -/
def submitQuizAttempt (store : Store) (quizId userId : String)
    (submissionData : Submission) (now : ℕ) :
    Except String (SubmitResult × Store) :=
  match lookupQuiz store quizId with
  | none => .error "Quiz not found"
  | some quiz =>
    .ok (submitResultFor quiz quizId userId submissionData now,
      submitStoreAfter store quiz quizId userId submissionData now)

/-- The create payload (`Partial<IQuiz>` as accepted by `createQuiz`),
restricted to the fields the claims involve; note it may carry a
`totalPoints` value. -/
structure QuizInput where
  title : Multilingual
  description : Option Multilingual := none
  lessonId : Option String := none
  subject : String
  «class» : ℚ
  timeLimit : Option ℚ := none
  passingScore : Option ℚ := none
  attemptsAllowed : Option ℚ := none
  questions : Option (List Question) := none
  totalPoints : Option ℚ := none
  isPublished : Option Bool := none
deriving Repr, DecidableEq

/-- The operation `createQuiz(quizData, userId)`: compute
`totalPoints = quizData.questions?.reduce((sum, q) => sum + (q.points || 0), 0) || 0`
and build the new document as `{ ...quizData, totalPoints, createdBy }` —
the computed total overrides any supplied one, and absent fields take the
schema defaults of `Quiz.model.ts`. `newId` stands for the generated
Mongo id. -/
def createQuiz (quizData : QuizInput) (userId : String) (newId : String) : Quiz :=
  let totalPoints :=
    match quizData.questions with
    | some qs => sumPoints qs
    | none => 0
  { _id := newId
    title := quizData.title
    description := quizData.description
    lessonId := quizData.lessonId
    subject := quizData.subject
    «class» := quizData.«class»
    timeLimit := quizData.timeLimit
    passingScore := quizData.passingScore.getD 60
    attemptsAllowed := quizData.attemptsAllowed.getD (-1)
    questions := quizData.questions.getD []
    totalPoints := totalPoints
    createdBy := userId
    isPublished := quizData.isPublished.getD false
    isActive := true
    isDeleted := false }

/-- The update payload (`Partial<IQuiz>` as accepted by `updateQuiz`):
every field optional, `totalPoints` included. -/
structure QuizUpdate where
  title : Option Multilingual := none
  description : Option Multilingual := none
  subject : Option String := none
  «class» : Option ℚ := none
  passingScore : Option ℚ := none
  questions : Option (List Question) := none
  totalPoints : Option ℚ := none
  isPublished : Option Bool := none
deriving Repr, DecidableEq

/-- The effect of `{ $set: updateData }` on one quiz document: each field
present in the update replaces the stored one, absent fields are left
untouched. -/
def applySet (q : Quiz) (u : QuizUpdate) : Quiz :=
  { q with
    title := u.title.getD q.title
    description := match u.description with
      | some d => some d
      | none => q.description
    subject := u.subject.getD q.subject
    «class» := u.«class».getD q.«class»
    passingScore := u.passingScore.getD q.passingScore
    questions := u.questions.getD q.questions
    totalPoints := u.totalPoints.getD q.totalPoints
    isPublished := u.isPublished.getD q.isPublished }

/-- The operation `updateQuiz(quizId, updateData)`: when `updateData.questions` is
present, overwrite `updateData.totalPoints` with the recomputed sum;
then `findOneAndUpdate({ _id: quizId, isDeleted: false }, { $set:
updateData }, { new: true })`. Returns the updated document (or `none`)
with the updated store. -/
def updateQuiz (store : Store) (quizId : String) (updateData : QuizUpdate) :
    Option Quiz × Store :=
  let updateData' :=
    match updateData.questions with
    | some qs => { updateData with totalPoints := some (sumPoints qs) }
    | none => updateData
  match store.quizzes.find? (fun q => q._id == quizId && !q.isDeleted) with
  | none => (none, store)
  | some q =>
    let q' := applySet q updateData'
    (some q',
      { store with
        quizzes := store.quizzes.map (fun r =>
          if r._id == quizId && !r.isDeleted then q' else r) })

/-- The raw PATCH `/quizzes/:id` body before validation; an API caller
may include a `totalPoints` member. -/
structure RawQuizUpdate where
  title : Option Multilingual := none
  description : Option Multilingual := none
  subject : Option String := none
  «class» : Option ℚ := none
  passingScore : Option ℚ := none
  questions : Option (List Question) := none
  totalPoints : Option ℚ := none
  isPublished : Option Bool := none
deriving Repr, DecidableEq

/-- The validation step of the PATCH route:
`updateQuizSchema = createQuizSchema.partial()` declares no `totalPoints`
key, and zod's `.parse` strips undeclared keys before the controller
replaces `req.body` with the validated value — so the update data
reaching the service never carries a caller's `totalPoints`. -/
def parseUpdateBody (raw : RawQuizUpdate) : QuizUpdate :=
  { title := raw.title
    description := raw.description
    subject := raw.subject
    «class» := raw.«class»
    passingScore := raw.passingScore
    questions := raw.questions
    totalPoints := none
    isPublished := raw.isPublished }

/-- The full PATCH `/quizzes/:id` pipeline: body validation followed by
the service update. -/
def updateQuizEndpoint (store : Store) (quizId : String) (raw : RawQuizUpdate) :
    Option Quiz × Store :=
  updateQuiz store quizId (parseUpdateBody raw)

/-- The operation `deleteQuiz(quizId)`: soft delete via
`findOneAndUpdate({ _id: quizId, isDeleted: false },
{ $set: { isDeleted: true, isActive: false } })`. -/
def deleteQuiz (store : Store) (quizId : String) : Option Quiz × Store :=
  match store.quizzes.find? (fun q => q._id == quizId && !q.isDeleted) with
  | none => (none, store)
  | some q =>
    let q' := { q with isDeleted := true, isActive := false }
    (some q',
      { store with
        quizzes := store.quizzes.map (fun r =>
          if r._id == quizId && !r.isDeleted then q' else r) })

/-- An option as served to students: `isCorrect` destructured away. -/
structure RedactedOption where
  _id : String
  text : Multilingual
  imageKey : Option String
deriving Repr, DecidableEq

/-- A question as served to students: `correctAnswer` and `explanation`
destructured away, options redacted. -/
structure RedactedQuestion where
  _id : String
  type : QuestionType
  question : Multilingual
  imageKey : Option String
  options : List RedactedOption
  points : ℚ
  order : Option ℚ
deriving Repr, DecidableEq

/-- A quiz as served to students: same document, questions redacted. -/
structure RedactedQuiz where
  _id : String
  title : Multilingual
  description : Option Multilingual
  lessonId : Option String
  subject : String
  «class» : ℚ
  timeLimit : Option ℚ
  passingScore : ℚ
  attemptsAllowed : ℚ
  questions : List RedactedQuestion
  totalPoints : ℚ
  createdBy : String
  isPublished : Bool
  isActive : Bool
  isDeleted : Bool
deriving Repr, DecidableEq

/-- The destructuring that drops `isCorrect` from an option. -/
def redactOption (o : QOption) : RedactedOption :=
  { _id := o._id, text := o.text, imageKey := o.imageKey }

/-- The destructuring that drops `correctAnswer` and `explanation`;
rest.options = q.options.map(...)`. -/
def redactQuestion (q : Question) : RedactedQuestion :=
  { _id := q._id
    type := q.type
    question := q.question
    imageKey := q.imageKey
    options := q.options.map redactOption
    points := q.points
    order := q.order }

/-- The read-time student projection of a stored quiz
(`getQuizById`, `userRole === 'student'` branch). -/
def redactQuiz (q : Quiz) : RedactedQuiz :=
  { _id := q._id
    title := q.title
    description := q.description
    lessonId := q.lessonId
    subject := q.subject
    «class» := q.«class»
    timeLimit := q.timeLimit
    passingScore := q.passingScore
    attemptsAllowed := q.attemptsAllowed
    questions := q.questions.map redactQuestion
    totalPoints := q.totalPoints
    createdBy := q.createdBy
    isPublished := q.isPublished
    isActive := q.isActive
    isDeleted := q.isDeleted }

/-- What `getQuizById` hands to the presentation layer: either the
unredacted document or the student projection. -/
inductive QuizView
  | full (q : Quiz)
  | redacted (q : RedactedQuiz)
deriving Repr, DecidableEq

/-- The operation `getQuizById(quizId, userRole)`: absent or soft-deleted gives null,
the student projection for role `student`, the stored document
otherwise. -/
def getQuizById (store : Store) (quizId : String) (userRole : String) :
    Option QuizView :=
  match lookupQuiz store quizId with
  | none => none
  | some quiz =>
    if quiz.isDeleted then none
    else if userRole == "student" then some (.redacted (redactQuiz quiz))
    else some (.full quiz)

/-- One per-question row of the analytics object. -/
structure QuestionStat where
  questionId : String
  correctCount : ℕ
  attemptCount : ℕ
  correctPercentage : ℚ
deriving Repr, DecidableEq

/-- The analytics object returned by `getQuizAnalytics`. -/
structure QuizAnalytics where
  quizId : String
  totalAttempts : ℕ
  uniqueStudents : ℕ
  averageScore : ℚ
  passRate : ℚ
  questionStats : List QuestionStat
deriving Repr, DecidableEq

/-- The flattening step of `getQuizAnalytics`: progress records holding
at least one attempt for the quiz, flat-mapped to `(userId, attempt)`
pairs for that quiz. -/
def attemptsOfQuiz (store : Store) (quizId : String) : List (String × Attempt) :=
  (store.progresses.filter
      (fun r => r.quizAttempts.any (fun a => a.quizId == quizId))).flatMap
    (fun r =>
      (r.quizAttempts.filter (fun a => a.quizId == quizId)).map
        (fun a => (r.userId, a)))

/-- The operation `getQuizAnalytics(quizId)`: error when the quiz is absent; a zeroed
well-formed object (one zero row per question) when no attempt exists;
otherwise counts, distinct-student count, mean percentage, pass rate and
per-question correctness rates. -/
def getQuizAnalytics (store : Store) (quizId : String) :
    Except String QuizAnalytics :=
  match lookupQuiz store quizId with
  | none => .error "Quiz not found"
  | some quiz =>
    let allAttempts := attemptsOfQuiz store quizId
    if allAttempts.length = 0 then
      .ok
        { quizId := quizId
          totalAttempts := 0
          uniqueStudents := 0
          averageScore := 0
          passRate := 0
          questionStats := quiz.questions.map (fun q =>
            { questionId := q._id
              correctCount := 0
              attemptCount := 0
              correctPercentage := 0 }) }
    else
      let totalAttempts := allAttempts.length
      let uniqueStudents := ((allAttempts.map (fun x => x.1)).dedup).length
      let sumScores := allAttempts.foldl (fun sum x => sum + x.2.percentage) 0
      let passCount := (allAttempts.filter (fun x => x.2.passed)).length
      let questionStats := quiz.questions.map (fun question =>
        let questionAttempts :=
          ((allAttempts.flatMap (fun x => x.2.answers)).filter
            (fun ans => ans.questionId == question._id))
        let correctCount := (questionAttempts.filter (fun ans => ans.isCorrect)).length
        let attemptCount := questionAttempts.length
        { questionId := question._id
          correctCount := correctCount
          attemptCount := attemptCount
          correctPercentage :=
            if 0 < attemptCount then (correctCount : ℚ) / attemptCount * 100
            else 0 })
      .ok
        { quizId := quizId
          totalAttempts := totalAttempts
          uniqueStudents := uniqueStudents
          averageScore := sumScores / totalAttempts
          passRate := (passCount : ℚ) / totalAttempts * 100
          questionStats := questionStats }

/-- The attempts a learner has recorded for a given quiz inside their
progress record for a lesson (empty when the record does not exist). -/
def attemptsFor (store : Store) (userId lessonId quizId : String) :
    List Attempt :=
  match lookupProgress store userId lessonId with
  | none => []
  | some p => p.quizAttempts.filter (fun a => a.quizId == quizId)

/-- Iterated submission: `n` sequential submissions of the same payload by the same learner
against the same quiz, each acting on the store left by the previous one
(a rejected submission leaves the store unchanged). -/
def submitIter (store : Store) (quizId userId : String) (sub : Submission)
    (now : ℕ) : ℕ → Store
  | 0 => store
  | n + 1 =>
    match submitQuizAttempt (submitIter store quizId userId sub now n)
        quizId userId sub now with
    | .ok (_, s') => s'
    | .error _ => submitIter store quizId userId sub now n

/-! Concrete sample data, used by the witness theorems to instantiate the
general statements. -/

/-- A wrong option. -/
def sampleOptionWrong : QOption :=
  { _id := "optA", text := { en := "3" }, isCorrect := false }

/-- The correct option. -/
def sampleOptionRight : QOption :=
  { _id := "optB", text := { en := "4" }, isCorrect := true }

/-- A one-point multiple-choice question. -/
def sampleChoiceQuestion : Question :=
  { _id := "q1"
    type := .multiple_choice
    question := { en := "2 + 2 ?" }
    options := [sampleOptionWrong, sampleOptionRight]
    points := 1 }

/-- A two-point fill-in-the-blank question keyed on `"Paris"`. -/
def sampleFillQuestion : Question :=
  { _id := "q2"
    type := .fill_blank
    question := { en := "Capital of France?" }
    correctAnswer := some { en := "Paris" }
    points := 2 }

/-- A fill-in-the-blank question with no stored `correctAnswer`. -/
def sampleBareFillQuestion : Question :=
  { _id := "q3"
    type := .fill_blank
    question := { en := "???" }
    points := 3 }

/-- A stored quiz tied to a lesson, with a consistent stored total. -/
def sampleQuiz : Quiz :=
  { _id := "quiz1"
    title := { en := "Sample" }
    subject := "Math"
    «class» := 10
    passingScore := 50
    lessonId := some "lesson1"
    questions := [sampleChoiceQuestion, sampleFillQuestion]
    totalPoints := 3
    createdBy := "teacher1" }

/-- A fully correct answers list for `sampleQuiz`. -/
def sampleAnswers : List AnswerInput :=
  [{ questionId := "q1", selectedOption := some "optB" },
   { questionId := "q2", answer := some " paris " }]

/-- A submission of `sampleAnswers` carrying a client timestamp. -/
def sampleSubmission : Submission :=
  { answers := sampleAnswers, clientTimestamp := some 500 }

/-- A store holding just `sampleQuiz` and no progress records. -/
def sampleStore : Store := { quizzes := [sampleQuiz] }

/-- A soft-deleted copy of `sampleQuiz`. -/
def sampleDeletedQuiz : Quiz :=
  { sampleQuiz with _id := "quiz2", isDeleted := true }

/-- A store holding only the soft-deleted quiz. -/
def sampleDeletedStore : Store := { quizzes := [sampleDeletedQuiz] }

/-- A create payload carrying one question and a bogus caller-supplied
total. -/
def sampleCreateInput : QuizInput :=
  { title := { en := "New" }
    subject := "Science"
    «class» := 9
    questions := some [sampleChoiceQuestion]
    totalPoints := some 999 }

/-- A raw update payload carrying only a bogus caller-supplied total. -/
def sampleRawUpdate : RawQuizUpdate := { totalPoints := some 999 }

/-- A recorded sample attempt at 100%. -/
def sampleAttemptA : Attempt :=
  { quizId := "quiz1"
    attemptNumber := 1
    score := 3
    totalPoints := 3
    percentage := 100
    passed := true
    answers := []
    startedAt := none
    submittedAt := 500
    duration := none }

/-- A recorded sample attempt at 50%. -/
def sampleAttemptB : Attempt :=
  { sampleAttemptA with
    attemptNumber := 2
    score := 1
    totalPoints := 2
    percentage := 50 }

end GyanSetu

namespace GyanSetu

/-! ### General lemmas about the grading pipeline -/

/-- The score fold is the sum of the points of the correct answers. -/
theorem scoreOf_eq_sum (l : List GradedAnswer) :
    scoreOf l = (l.map (fun r => if r.isCorrect then r.points else 0)).sum := by
  have h : ∀ (l : List GradedAnswer) (c : ℚ),
      l.foldl (fun score r => if r.isCorrect then score + r.points else score) c =
        c + (l.map (fun r => if r.isCorrect then r.points else 0)).sum := by
    intro l
    induction l with
    | nil => intro c; simp
    | cons r l ih =>
      intro c
      simp only [List.foldl_cons, List.map_cons, List.sum_cons]
      rw [ih]
      by_cases hr : r.isCorrect
      · simp [hr]
        ring
      · simp [hr]
  simpa using h l 0

/-- The points fold is the sum of the question points. -/
theorem sumPoints_eq_sum (qs : List Question) :
    sumPoints qs = (qs.map Question.points).sum := by
  have h : ∀ (qs : List Question) (c : ℚ),
      qs.foldl (fun sum q => sum + q.points) c =
        c + (qs.map Question.points).sum := by
    intro qs
    induction qs with
    | nil => intro c; simp
    | cons q qs ih =>
      intro c
      simp only [List.foldl_cons, List.map_cons, List.sum_cons]
      rw [ih]
      ring
  simpa [sumPoints] using h qs 0

/-- A graded answer earns the question's points when correct and zero
otherwise. -/
theorem gradeQuestion_points_eq (answers : List AnswerInput) (q : Question) :
    (gradeQuestion answers q).points =
      if (gradeQuestion answers q).isCorrect then q.points else 0 := by
  unfold gradeQuestion
  dsimp only
  repeat' split
  all_goals simp_all

/-- A question with no matching answer entry is graded incorrect with
zero points. -/
theorem gradeQuestion_no_answer (answers : List AnswerInput) (q : Question)
    (h : answers.find? (fun a => a.questionId == q._id) = none) :
    (gradeQuestion answers q).isCorrect = false ∧
    (gradeQuestion answers q).points = 0 := by
  unfold gradeQuestion
  rw [h]
  simp

/-- The option lookup of the choice branch succeeds with a correct
option exactly when some option carries the selected id and is marked
correct (option ids must be distinct, as Mongo subdocument ids are). -/
theorem find_correct_option_iff (opts : List QOption) (sel : Option String)
    (hnd : (opts.map QOption._id).Nodup) :
    ((match opts.find? (fun o => some o._id == sel) with
      | some o => o.isCorrect
      | none => false) = true ↔
    ∃ o ∈ opts, sel = some o._id ∧ o.isCorrect = true) := by
  constructor
  · intro h
    cases hfind : opts.find? (fun o => some o._id == sel) with
    | none => rw [hfind] at h; simp at h
    | some o =>
      rw [hfind] at h
      have hmem := List.mem_of_find?_eq_some hfind
      have hp := List.find?_some hfind
      have hsel : sel = some o._id := by
        have h1 : some o._id = sel := by simpa using hp
        exact h1.symm
      exact ⟨o, hmem, hsel, h⟩
  · rintro ⟨o, hmem, hsel, hcorr⟩
    cases hfind : opts.find? (fun o => some o._id == sel) with
    | none =>
      have := List.find?_eq_none.mp hfind o hmem
      simp [hsel] at this
    | some o' =>
      have hmem' := List.mem_of_find?_eq_some hfind
      have hp' := List.find?_some hfind
      have hid : o'._id = o._id := by
        have h1 : some o'._id = sel := by simpa using hp'
        rw [hsel] at h1
        simpa using h1
      have heq : o' = o := List.inj_on_of_nodup_map hnd hmem' hmem hid
      simp [heq, hcorr]

/-- Choice-type grading: correct exactly when the selected option exists
and is marked correct. -/
theorem gradeQuestion_choice_iff (answers : List AnswerInput) (q : Question)
    (ua : AnswerInput)
    (hfind : answers.find? (fun a => a.questionId == q._id) = some ua)
    (hty : q.type = .multiple_choice ∨ q.type = .true_false ∨
      q.type = .image_choice)
    (hnd : (q.options.map QOption._id).Nodup) :
    ((gradeQuestion answers q).isCorrect = true ↔
      ∃ o ∈ q.options, ua.selectedOption = some o._id ∧ o.isCorrect = true) := by
  have key := find_correct_option_iff q.options ua.selectedOption hnd
  rw [← key]
  unfold gradeQuestion
  rw [hfind]
  dsimp only
  rcases hty with h | h | h <;> rw [h] <;> dsimp only <;>
    (cases hopt : q.options.find? (fun o => some o._id == ua.selectedOption) with
     | none => simp
     | some o => by_cases ho : o.isCorrect <;> simp [ho])

/-- Fill-in-the-blank grading: correct exactly when the normalized
submitted text coincides with the normalized English reference (both
sides compared as possibly-absent values). -/
theorem gradeQuestion_fill_iff (answers : List AnswerInput) (q : Question)
    (ua : AnswerInput)
    (hfind : answers.find? (fun a => a.questionId == q._id) = some ua)
    (hty : q.type = .fill_blank) :
    ((gradeQuestion answers q).isCorrect = true ↔
      ua.answer.map normalizeAnswer =
        q.correctAnswer.map (fun c => normalizeAnswer c.en)) := by
  unfold gradeQuestion
  rw [hfind]
  dsimp only
  rw [hty]
  dsimp only
  split <;> simp_all

/-- The attempt's score is the sum of the per-question points awarded. -/
theorem scoreOf_gradeAll_eq (quiz : Quiz) (answers : List AnswerInput) :
    scoreOf (gradeAll quiz answers) =
      ((gradeAll quiz answers).map GradedAnswer.points).sum := by
  rw [scoreOf_eq_sum]
  congr 1
  apply List.map_congr_left
  intro r hr
  rcases List.mem_map.mp hr with ⟨q, hq, rfl⟩
  rw [gradeQuestion_points_eq]
  by_cases h : (gradeQuestion answers q).isCorrect <;> simp [h]

/-! ### C1 -/

/-- C1: for every quiz and submitted answers list, the per-question
graded results of `submitQuizAttempt` follow the dispatch rules — a
question with no matching answer entry is incorrect with 0 points; a
choice-type question is correct with `question.points` iff some option
carries the entry's `selectedOption` id and is marked correct; a
fill-blank question is correct with `question.points` iff the submitted
text equals `correctAnswer.en` under trimmed case-insensitive equality —
and the attempt's score is the sum of the points awarded over the
questions. (Option ids within a question are assumed distinct, as Mongo
subdocument ids are.) -/
theorem grading_follows_dispatch_rules (quiz : Quiz) (answers : List AnswerInput)
    (hnd : ∀ q ∈ quiz.questions, (q.options.map QOption._id).Nodup) :
    (∀ q ∈ quiz.questions,
      (answers.find? (fun a => a.questionId == q._id) = none →
        (gradeQuestion answers q).isCorrect = false ∧
        (gradeQuestion answers q).points = 0) ∧
      (∀ ua, answers.find? (fun a => a.questionId == q._id) = some ua →
        ((q.type = .multiple_choice ∨ q.type = .true_false ∨
            q.type = .image_choice) →
          ((gradeQuestion answers q).isCorrect = true ↔
            ∃ o ∈ q.options, ua.selectedOption = some o._id ∧
              o.isCorrect = true)) ∧
        (q.type = .fill_blank →
          ((gradeQuestion answers q).isCorrect = true ↔
            ua.answer.map normalizeAnswer =
              q.correctAnswer.map (fun c => normalizeAnswer c.en)))) ∧
      (gradeQuestion answers q).points =
        (if (gradeQuestion answers q).isCorrect then q.points else 0)) ∧
    scoreOf (gradeAll quiz answers) =
      ((gradeAll quiz answers).map GradedAnswer.points).sum := by
  refine ⟨fun q hq =>
    ⟨fun h => gradeQuestion_no_answer answers q h,
     fun ua hua =>
      ⟨fun hty => gradeQuestion_choice_iff answers q ua hua hty (hnd q hq),
       fun hty => gradeQuestion_fill_iff answers q ua hua hty⟩,
     gradeQuestion_points_eq answers q⟩,
    scoreOf_gradeAll_eq quiz answers⟩

/-- Witness for C1 at the sample quiz and a concrete answers list. -/
theorem grading_follows_dispatch_rules_witness :
    (∀ q ∈ sampleQuiz.questions, (q.options.map QOption._id).Nodup) ∧
    scoreOf (gradeAll sampleQuiz sampleAnswers) =
      ((gradeAll sampleQuiz sampleAnswers).map GradedAnswer.points).sum :=
  ⟨by decide, (grading_follows_dispatch_rules sampleQuiz sampleAnswers (by decide)).2⟩

/-! ### C10 -/

/-- C10: a fill-blank question with no stored `correctAnswer`, answered
by an entry carrying no answer text, is graded correct and earns the
question's full points — both sides of the comparison are absent and
compare equal. -/
theorem fill_blank_absent_answer_correct (answers : List AnswerInput)
    (q : Question) (ua : AnswerInput)
    (hty : q.type = .fill_blank) (hca : q.correctAnswer = none)
    (hfind : answers.find? (fun a => a.questionId == q._id) = some ua)
    (hans : ua.answer = none) :
    (gradeQuestion answers q).isCorrect = true ∧
    (gradeQuestion answers q).points = q.points := by
  have hiff := gradeQuestion_fill_iff answers q ua hfind hty
  have hcor : (gradeQuestion answers q).isCorrect = true := by
    rw [hiff, hans, hca]; rfl
  refine ⟨hcor, ?_⟩
  rw [gradeQuestion_points_eq, hcor]
  simp

/-- Witness for C10 at a concrete bare fill-blank question. -/
theorem fill_blank_absent_answer_correct_witness :
    (sampleBareFillQuestion.type = .fill_blank ∧
     sampleBareFillQuestion.correctAnswer = none ∧
     [AnswerInput.mk "q3" none none].find?
        (fun a => a.questionId == sampleBareFillQuestion._id) =
       some (AnswerInput.mk "q3" none none)) ∧
    (gradeQuestion [AnswerInput.mk "q3" none none]
        sampleBareFillQuestion).isCorrect = true ∧
    (gradeQuestion [AnswerInput.mk "q3" none none]
        sampleBareFillQuestion).points = sampleBareFillQuestion.points :=
  ⟨⟨by decide, by decide, by decide⟩,
   fill_blank_absent_answer_correct [AnswerInput.mk "q3" none none]
     sampleBareFillQuestion (AnswerInput.mk "q3" none none)
     (by decide) (by decide) (by decide) (by decide)⟩

end GyanSetu

namespace GyanSetu

/-! ### C2 -/

/-- Projection of the graded result: the score field. -/
theorem submitResultFor_score (quiz : Quiz) (quizId userId : String)
    (sub : Submission) (now : ℕ) :
    (submitResultFor quiz quizId userId sub now).score =
      scoreOf (gradeAll quiz sub.answers) := rfl

/-- Projection of the graded result: the totalPoints field. -/
theorem submitResultFor_totalPoints (quiz : Quiz) (quizId userId : String)
    (sub : Submission) (now : ℕ) :
    (submitResultFor quiz quizId userId sub now).totalPoints =
      effectiveTotalPoints quiz := rfl

/-- Projection of the graded result: the percentage field. -/
theorem submitResultFor_percentage (quiz : Quiz) (quizId userId : String)
    (sub : Submission) (now : ℕ) :
    (submitResultFor quiz quizId userId sub now).percentage =
      percentageOf (scoreOf (gradeAll quiz sub.answers))
        (effectiveTotalPoints quiz) := rfl

/-- Projection of the graded result: the passed field. -/
theorem submitResultFor_passed (quiz : Quiz) (quizId userId : String)
    (sub : Submission) (now : ℕ) :
    (submitResultFor quiz quizId userId sub now).passed =
      decide (percentageOf (scoreOf (gradeAll quiz sub.answers))
        (effectiveTotalPoints quiz) ≥ quiz.passingScore) := rfl

/-- When the quiz exists, `submitQuizAttempt` returns the graded result
and the updated store. -/
theorem submitQuizAttempt_ok (store : Store) (quizId userId : String)
    (sub : Submission) (now : ℕ) (quiz : Quiz)
    (hquiz : lookupQuiz store quizId = some quiz) :
    submitQuizAttempt store quizId userId sub now =
      .ok (submitResultFor quiz quizId userId sub now,
        submitStoreAfter store quiz quizId userId sub now) := by
  unfold submitQuizAttempt
  rw [hquiz]

/-- Under the stored-total invariant the effective total is the sum of
the question points. -/
theorem effectiveTotalPoints_eq (quiz : Quiz)
    (hinv : quiz.totalPoints = sumPoints quiz.questions ∨
      quiz.totalPoints = 0) :
    effectiveTotalPoints quiz = sumPoints quiz.questions := by
  unfold effectiveTotalPoints
  rcases hinv with h | h
  · rw [h]
    split <;> rfl
  · simp [h]

/-- The score is nonnegative when all question points are. -/
theorem scoreOf_nonneg (quiz : Quiz) (answers : List AnswerInput)
    (hpts : ∀ q ∈ quiz.questions, 0 ≤ q.points) :
    0 ≤ scoreOf (gradeAll quiz answers) := by
  rw [scoreOf_eq_sum]
  apply List.sum_nonneg
  intro x hx
  rw [List.mem_map] at hx
  obtain ⟨r, hr, rfl⟩ := hx
  rw [gradeAll, List.mem_map] at hr
  obtain ⟨q, hq, rfl⟩ := hr
  rw [gradeQuestion_points_eq]
  by_cases h : (gradeQuestion answers q).isCorrect <;> simp [h]
  exact hpts q hq

/-- The score never exceeds the sum of the question points. -/
theorem scoreOf_le_sumPoints (quiz : Quiz) (answers : List AnswerInput)
    (hpts : ∀ q ∈ quiz.questions, 0 ≤ q.points) :
    scoreOf (gradeAll quiz answers) ≤ sumPoints quiz.questions := by
  rw [scoreOf_eq_sum, sumPoints_eq_sum, gradeAll, List.map_map]
  apply List.sum_le_sum
  intro q hq
  simp only [Function.comp]
  rw [gradeQuestion_points_eq]
  by_cases h : (gradeQuestion answers q).isCorrect <;> simp [h]
  exact hpts q hq

/-- C2: every graded attempt returned by `submitQuizAttempt` satisfies
`0 <= score <= totalPoints`; its `totalPoints` is the quiz's stored
total (recomputed from the question points when the stored value is
absent); `percentage = score/totalPoints*100` when `totalPoints > 0` and
`0` when `totalPoints = 0`; and `passed` holds iff
`percentage >= quiz.passingScore`. (Question points are nonnegative, as
the schema requires, and the stored total satisfies the create/update
invariant or is absent.) -/
theorem submit_result_bounds (store : Store) (quizId userId : String)
    (sub : Submission) (now : ℕ) (quiz : Quiz) (r : SubmitResult)
    (store' : Store)
    (hquiz : lookupQuiz store quizId = some quiz)
    (hpts : ∀ q ∈ quiz.questions, 0 ≤ q.points)
    (hinv : quiz.totalPoints = sumPoints quiz.questions ∨
      quiz.totalPoints = 0)
    (hok : submitQuizAttempt store quizId userId sub now = .ok (r, store')) :
    0 ≤ r.score ∧ r.score ≤ r.totalPoints ∧
    r.totalPoints = effectiveTotalPoints quiz ∧
    (0 < r.totalPoints → r.percentage = r.score / r.totalPoints * 100) ∧
    (r.totalPoints = 0 → r.percentage = 0) ∧
    (r.passed = true ↔ r.percentage ≥ quiz.passingScore) := by
  rw [submitQuizAttempt_ok store quizId userId sub now quiz hquiz] at hok
  simp only [Except.ok.injEq, Prod.mk.injEq] at hok
  obtain ⟨h1, h2⟩ := hok
  subst h1
  refine ⟨?_, ?_, ?_, ?_, ?_, ?_⟩
  · rw [submitResultFor_score]
    exact scoreOf_nonneg quiz sub.answers hpts
  · rw [submitResultFor_score, submitResultFor_totalPoints,
      effectiveTotalPoints_eq quiz hinv]
    exact scoreOf_le_sumPoints quiz sub.answers hpts
  · rw [submitResultFor_totalPoints]
  · intro hpos
    rw [submitResultFor_totalPoints] at hpos
    rw [submitResultFor_percentage, submitResultFor_score,
      submitResultFor_totalPoints, percentageOf, if_pos hpos]
  · intro hzero
    rw [submitResultFor_totalPoints] at hzero
    rw [submitResultFor_percentage, percentageOf, hzero]
    simp
  · rw [submitResultFor_passed, submitResultFor_percentage]
    exact decide_eq_true_iff

/-- Witness for C2: a fully correct submission against the sample
quiz scores 3 of 3. -/
theorem submit_result_bounds_witness :
    (lookupQuiz sampleStore "quiz1" = some sampleQuiz) ∧
    (∀ q ∈ sampleQuiz.questions, 0 ≤ q.points) ∧
    (sampleQuiz.totalPoints = sumPoints sampleQuiz.questions ∨
      sampleQuiz.totalPoints = 0) ∧
    (0 ≤ (submitResultFor sampleQuiz "quiz1" "u1" sampleSubmission 1000).score ∧
     (submitResultFor sampleQuiz "quiz1" "u1" sampleSubmission 1000).score ≤
       (submitResultFor sampleQuiz "quiz1" "u1" sampleSubmission 1000).totalPoints ∧
     (submitResultFor sampleQuiz "quiz1" "u1" sampleSubmission 1000).totalPoints =
       effectiveTotalPoints sampleQuiz ∧
     (0 < (submitResultFor sampleQuiz "quiz1" "u1" sampleSubmission 1000).totalPoints →
       (submitResultFor sampleQuiz "quiz1" "u1" sampleSubmission 1000).percentage =
         (submitResultFor sampleQuiz "quiz1" "u1" sampleSubmission 1000).score /
           (submitResultFor sampleQuiz "quiz1" "u1" sampleSubmission 1000).totalPoints * 100) ∧
     ((submitResultFor sampleQuiz "quiz1" "u1" sampleSubmission 1000).totalPoints = 0 →
       (submitResultFor sampleQuiz "quiz1" "u1" sampleSubmission 1000).percentage = 0) ∧
     ((submitResultFor sampleQuiz "quiz1" "u1" sampleSubmission 1000).passed = true ↔
       (submitResultFor sampleQuiz "quiz1" "u1" sampleSubmission 1000).percentage ≥
         sampleQuiz.passingScore)) :=
  ⟨by decide,
   by
    intro q hq
    simp only [sampleQuiz, List.mem_cons, List.not_mem_nil, or_false] at hq
    rcases hq with rfl | rfl <;>
      norm_num [sampleChoiceQuestion, sampleFillQuestion],
   Or.inl (by
    norm_num [sampleQuiz, sumPoints, sampleChoiceQuestion, sampleFillQuestion]),
   submit_result_bounds sampleStore "quiz1" "u1" sampleSubmission 1000
     sampleQuiz (submitResultFor sampleQuiz "quiz1" "u1" sampleSubmission 1000)
     (submitStoreAfter sampleStore sampleQuiz "quiz1" "u1" sampleSubmission 1000)
     (by decide)
     (by
      intro q hq
      simp only [sampleQuiz, List.mem_cons, List.not_mem_nil, or_false] at hq
      rcases hq with rfl | rfl <;>
        norm_num [sampleChoiceQuestion, sampleFillQuestion])
     (Or.inl (by
      norm_num [sampleQuiz, sumPoints, sampleChoiceQuestion, sampleFillQuestion]))
     (submitQuizAttempt_ok sampleStore "quiz1" "u1" sampleSubmission 1000
       sampleQuiz (by decide))⟩

end GyanSetu

namespace GyanSetu

/-! ### C3 -/

/-- Counterexample to C3: a soft-deleted quiz does **not** block
submissions — `submitQuizAttempt` checks only that the quiz document
exists, never its `isDeleted` flag, so an attempt against the deleted
sample quiz is accepted. -/
theorem submit_deleted_quiz_not_blocked :
    sampleDeletedQuiz.isDeleted = true ∧
    (submitQuizAttempt sampleDeletedStore "quiz2" "u1"
      { answers := [] } 0).isOk = true := by
  constructor
  · decide
  · rw [submitQuizAttempt_ok sampleDeletedStore "quiz2" "u1"
      { answers := [] } 0 sampleDeletedQuiz (by decide)]
    rfl

/-- C3 as amended: `submitQuizAttempt` signals `NotFound` (and touches
nothing) exactly when no quiz document with the id exists; a quiz that
exists is graded and recorded even when its `isDeleted` flag is true. -/
theorem submit_notfound_iff_absent (store : Store) (quizId userId : String)
    (sub : Submission) (now : ℕ) :
    (lookupQuiz store quizId = none →
      submitQuizAttempt store quizId userId sub now =
        .error "Quiz not found") ∧
    (∀ quiz, lookupQuiz store quizId = some quiz →
      (submitQuizAttempt store quizId userId sub now).isOk = true) := by
  constructor
  · intro h
    unfold submitQuizAttempt
    rw [h]
  · intro quiz h
    rw [submitQuizAttempt_ok store quizId userId sub now quiz h]
    rfl

/-- Witness for the amended C3: both branches at concrete stores. -/
theorem submit_notfound_iff_absent_witness :
    (lookupProgress sampleDeletedStore "u1" "lesson1" = none) ∧
    (lookupQuiz sampleDeletedStore "quiz1" = none ∧
      submitQuizAttempt sampleDeletedStore "quiz1" "u1" { answers := [] } 0 =
        .error "Quiz not found") ∧
    (lookupQuiz sampleDeletedStore "quiz2" = some sampleDeletedQuiz ∧
      (submitQuizAttempt sampleDeletedStore "quiz2" "u1"
        { answers := [] } 0).isOk = true) :=
  ⟨by decide,
   ⟨by decide,
    (submit_notfound_iff_absent sampleDeletedStore "quiz1" "u1"
      { answers := [] } 0).1 (by decide)⟩,
   ⟨by decide,
    (submit_notfound_iff_absent sampleDeletedStore "quiz2" "u1"
      { answers := [] } 0).2 sampleDeletedQuiz (by decide)⟩⟩

/-! ### C4 -/

/-- C4: for a stored, non-deleted quiz, `getQuizById` returns the
redacted projection for role `student` — every question stripped of
`correctAnswer` and `explanation`, every option stripped of `isCorrect`,
as the redacted record types carry no such fields — and the unredacted
document for roles `teacher` and `admin`; both views are projections of
the same stored record. -/
theorem getQuizById_role_projection (store : Store) (quizId : String)
    (quiz : Quiz)
    (hquiz : lookupQuiz store quizId = some quiz)
    (hdel : quiz.isDeleted = false) :
    getQuizById store quizId "student" = some (.redacted (redactQuiz quiz)) ∧
    getQuizById store quizId "teacher" = some (.full quiz) ∧
    getQuizById store quizId "admin" = some (.full quiz) ∧
    (redactQuiz quiz).questions = quiz.questions.map redactQuestion ∧
    (∀ q ∈ quiz.questions,
      (redactQuestion q).options = q.options.map redactOption ∧
      (redactQuestion q).question = q.question ∧
      (redactQuestion q).points = q.points) := by
  refine ⟨?_, ?_, ?_, rfl, fun q hq => ⟨rfl, rfl, rfl⟩⟩ <;>
    simp [getQuizById, hquiz, hdel]

/-- Witness for C4 at the sample store. -/
theorem getQuizById_role_projection_witness :
    (lookupQuiz sampleStore "quiz1" = some sampleQuiz ∧
      sampleQuiz.isDeleted = false) ∧
    (getQuizById sampleStore "quiz1" "student" =
      some (.redacted (redactQuiz sampleQuiz)) ∧
     getQuizById sampleStore "quiz1" "teacher" = some (.full sampleQuiz)) :=
  ⟨⟨by decide, by decide⟩,
   ⟨(getQuizById_role_projection sampleStore "quiz1" sampleQuiz
      (by decide) (by decide)).1,
    (getQuizById_role_projection sampleStore "quiz1" sampleQuiz
      (by decide) (by decide)).2.1⟩⟩

/-! ### C8 -/

/-- C8: for an existing quiz with no recorded attempt, analytics is a
well-formed zero-valued object, not an error: zero totals and one zeroed
stat row per question of the quiz. -/
theorem analytics_zero_attempts (store : Store) (quizId : String)
    (quiz : Quiz)
    (hquiz : lookupQuiz store quizId = some quiz)
    (hempty : attemptsOfQuiz store quizId = []) :
    getQuizAnalytics store quizId =
      .ok { quizId := quizId
            totalAttempts := 0
            uniqueStudents := 0
            averageScore := 0
            passRate := 0
            questionStats := quiz.questions.map (fun q =>
              { questionId := q._id
                correctCount := 0
                attemptCount := 0
                correctPercentage := 0 }) } := by
  unfold getQuizAnalytics
  rw [hquiz]
  dsimp only
  rw [hempty]
  rfl

/-- Witness for C8 at the sample store, which holds no progress. -/
theorem analytics_zero_attempts_witness :
    (lookupQuiz sampleStore "quiz1" = some sampleQuiz ∧
      attemptsOfQuiz sampleStore "quiz1" = []) ∧
    getQuizAnalytics sampleStore "quiz1" =
      .ok { quizId := "quiz1"
            totalAttempts := 0
            uniqueStudents := 0
            averageScore := 0
            passRate := 0
            questionStats := sampleQuiz.questions.map (fun q =>
              { questionId := q._id
                correctCount := 0
                attemptCount := 0
                correctPercentage := 0 }) } :=
  ⟨⟨by decide, by decide⟩,
   analytics_zero_attempts sampleStore "quiz1" sampleQuiz
     (by decide) (by decide)⟩

end GyanSetu

namespace GyanSetu

/-- Looking up a just-saved progress record by its own key finds exactly
the saved record. -/
theorem lookupProgress_after_save (qs : List Quiz) (ps : List Progress)
    (p : Progress) :
    lookupProgress { quizzes := qs, progresses := saveProgress ps p }
      p.userId p.lessonId = some p := by
  unfold lookupProgress saveProgress
  dsimp only
  by_cases hany : ps.any (fun q => q.userId == p.userId && q.lessonId == p.lessonId)
  · rw [if_pos hany]
    induction ps with
    | nil => simp at hany
    | cons q ps ih =>
      by_cases hq : (q.userId == p.userId && q.lessonId == p.lessonId) = true
      · rw [List.map_cons, if_pos hq]
        apply List.find?_cons_of_pos
        simp
      · rw [List.map_cons, if_neg hq]
        rw [List.find?_cons_of_neg _ (by simpa using hq)]
        apply ih
        rcases (List.any_eq_true).mp hany with ⟨x, hx, hpx⟩
        rcases List.mem_cons.mp hx with rfl | hx'
        · exact absurd hpx hq
        · exact (List.any_eq_true).mpr ⟨x, hx', hpx⟩
  · rw [if_neg hany]
    rw [List.find?_append]
    have hnone : ps.find?
        (fun q => q.userId == p.userId && q.lessonId == p.lessonId) = none := by
      rw [List.find?_eq_none]
      intro x hx hpx
      exact hany ((List.any_eq_true).mpr ⟨x, hx, hpx⟩)
    rw [hnone]
    simp [List.find?]

/-- The key fields of the progress record loaded (or created) for a
submission are the learner and lesson of the submission. -/
theorem progress_key_fields (store : Store) (userId lessonId : String)
    (now : ℕ) :
    ((lookupProgress store userId lessonId).getD
      (freshProgress userId lessonId now)).userId = userId ∧
    ((lookupProgress store userId lessonId).getD
      (freshProgress userId lessonId now)).lessonId = lessonId := by
  cases hlp : lookupProgress store userId lessonId with
  | none => exact ⟨rfl, rfl⟩
  | some p0 =>
    have hp := List.find?_some hlp
    simp only [Bool.and_eq_true, beq_iff_eq] at hp
    simpa using hp

/-! ### C9 -/

/-- C9: every successful recording of an attempt (the submitted quiz
exists and is tied to a lesson) leaves the learner's progress record
with `syncStatus = synced` and `lastSyncedAt` equal to the server
clock, and stores the client-supplied timestamp when the submission
carries one. -/
theorem submit_sets_sync_metadata (store : Store) (quizId userId : String)
    (sub : Submission) (now : ℕ) (quiz : Quiz) (lessonId : String)
    (r : SubmitResult) (store' : Store)
    (hquiz : lookupQuiz store quizId = some quiz)
    (hlid : quiz.lessonId = some lessonId)
    (hok : submitQuizAttempt store quizId userId sub now = .ok (r, store')) :
    ∃ p, lookupProgress store' userId lessonId = some p ∧
      p.syncStatus = .synced ∧ p.lastSyncedAt = now ∧
      (∀ ct, sub.clientTimestamp = some ct → p.clientTimestamp = some ct) := by
  rw [submitQuizAttempt_ok store quizId userId sub now quiz hquiz] at hok
  simp only [Except.ok.injEq, Prod.mk.injEq] at hok
  obtain ⟨h1, h2⟩ := hok
  subst h2
  unfold submitStoreAfter
  rw [hlid]
  dsimp only
  obtain ⟨huser, hlesson⟩ := progress_key_fields store userId lessonId now
  refine ⟨pushAttempt
      ((lookupProgress store userId lessonId).getD
        (freshProgress userId lessonId now))
      (attemptFor quiz quizId sub now
        ((((lookupProgress store userId lessonId).getD
            (freshProgress userId lessonId now)).quizAttempts.filter
          (fun a => a.quizId == quizId)).length + 1))
      now sub.clientTimestamp, ?_, rfl, rfl, ?_⟩
  · have hsave := lookupProgress_after_save store.quizzes store.progresses
      (pushAttempt
        ((lookupProgress store userId lessonId).getD
          (freshProgress userId lessonId now))
        (attemptFor quiz quizId sub now
          ((((lookupProgress store userId lessonId).getD
              (freshProgress userId lessonId now)).quizAttempts.filter
            (fun a => a.quizId == quizId)).length + 1))
        now sub.clientTimestamp)
    have hu : (pushAttempt
        ((lookupProgress store userId lessonId).getD
          (freshProgress userId lessonId now))
        (attemptFor quiz quizId sub now
          ((((lookupProgress store userId lessonId).getD
              (freshProgress userId lessonId now)).quizAttempts.filter
            (fun a => a.quizId == quizId)).length + 1))
        now sub.clientTimestamp).userId = userId := huser
    have hl : (pushAttempt
        ((lookupProgress store userId lessonId).getD
          (freshProgress userId lessonId now))
        (attemptFor quiz quizId sub now
          ((((lookupProgress store userId lessonId).getD
              (freshProgress userId lessonId now)).quizAttempts.filter
            (fun a => a.quizId == quizId)).length + 1))
        now sub.clientTimestamp).lessonId = lessonId := hlesson
    rw [hu, hl] at hsave
    exact hsave
  · intro ct hct
    simp [pushAttempt, hct]

/-- Witness for C9: the sample submission carries client timestamp 500;
after recording at server time 1000 the progress record is synced. -/
theorem submit_sets_sync_metadata_witness :
    (lookupQuiz sampleStore "quiz1" = some sampleQuiz ∧
      sampleQuiz.lessonId = some "lesson1") ∧
    ∃ p, lookupProgress
        (submitStoreAfter sampleStore sampleQuiz "quiz1" "u1"
          sampleSubmission 1000) "u1" "lesson1" = some p ∧
      p.syncStatus = .synced ∧ p.lastSyncedAt = 1000 ∧
      (∀ ct, sampleSubmission.clientTimestamp = some ct →
        p.clientTimestamp = some ct) :=
  ⟨⟨by decide, by decide⟩,
   submit_sets_sync_metadata sampleStore "quiz1" "u1" sampleSubmission 1000
     sampleQuiz "lesson1"
     (submitResultFor sampleQuiz "quiz1" "u1" sampleSubmission 1000)
     (submitStoreAfter sampleStore sampleQuiz "quiz1" "u1" sampleSubmission 1000)
     (by decide) (by decide)
     (submitQuizAttempt_ok sampleStore "quiz1" "u1" sampleSubmission 1000
       sampleQuiz (by decide))⟩

end GyanSetu

namespace GyanSetu

/-! ### C5 -/

/-- The prior-attempt list read by the recording step coincides with
`attemptsFor` (a missing record counts as no prior attempts). -/
theorem attemptsFor_eq_filter (store : Store) (userId lessonId quizId : String)
    (now : ℕ) :
    attemptsFor store userId lessonId quizId =
      (((lookupProgress store userId lessonId).getD
          (freshProgress userId lessonId now)).quizAttempts.filter
        (fun a => a.quizId == quizId)) := by
  unfold attemptsFor
  cases lookupProgress store userId lessonId <;> rfl

/-- The attempt number stored by the recording step is the one computed
at submission time. -/
theorem attemptFor_attemptNumber (quiz : Quiz) (quizId : String)
    (sub : Submission) (now k : ℕ) :
    (attemptFor quiz quizId sub now k).attemptNumber = k := rfl

/-- One successful submission appends exactly one attempt for this quiz
to the learner's record, numbered `prior-count + 1`, and leaves the quiz
collection untouched. -/
theorem submit_step_attempts (store : Store) (quizId userId : String)
    (sub : Submission) (now : ℕ) (quiz : Quiz) (lessonId : String)
    (hlid : quiz.lessonId = some lessonId) :
    (submitStoreAfter store quiz quizId userId sub now).quizzes =
      store.quizzes ∧
    attemptsFor (submitStoreAfter store quiz quizId userId sub now)
        userId lessonId quizId =
      attemptsFor store userId lessonId quizId ++
        [attemptFor quiz quizId sub now
          ((attemptsFor store userId lessonId quizId).length + 1)] := by
  unfold submitStoreAfter
  rw [hlid]
  dsimp only
  constructor
  · rfl
  · obtain ⟨huser, hlesson⟩ := progress_key_fields store userId lessonId now
    rw [attemptsFor_eq_filter store userId lessonId quizId now]
    set progress := (lookupProgress store userId lessonId).getD
      (freshProgress userId lessonId now) with hprog
    set att := attemptFor quiz quizId sub now
      ((progress.quizAttempts.filter (fun a => a.quizId == quizId)).length + 1)
      with hatt
    have hsave := lookupProgress_after_save store.quizzes store.progresses
      (pushAttempt progress att now sub.clientTimestamp)
    have hu : (pushAttempt progress att now sub.clientTimestamp).userId =
        userId := huser
    have hl : (pushAttempt progress att now sub.clientTimestamp).lessonId =
        lessonId := hlesson
    rw [hu, hl] at hsave
    unfold attemptsFor
    rw [hsave]
    show ((pushAttempt progress att now sub.clientTimestamp).quizAttempts.filter
        (fun a => a.quizId == quizId)) = _
    have hpush : (pushAttempt progress att now sub.clientTimestamp).quizAttempts =
        progress.quizAttempts ++ [att] := rfl
    rw [hpush, List.filter_append]
    congr 1
    have : (att.quizId == quizId) = true := by
      rw [hatt, attemptFor]
      simp
    simp [List.filter, this]

/-- Iterated submissions keep the quiz collection fixed and number the
attempts `1..n`. -/
theorem submitIter_attempts (store : Store) (quizId userId : String)
    (sub : Submission) (now : ℕ) (quiz : Quiz) (lessonId : String)
    (hquiz : lookupQuiz store quizId = some quiz)
    (hlid : quiz.lessonId = some lessonId)
    (hstart : attemptsFor store userId lessonId quizId = []) :
    ∀ n,
      (submitIter store quizId userId sub now n).quizzes = store.quizzes ∧
      (attemptsFor (submitIter store quizId userId sub now n)
          userId lessonId quizId).map (fun a => a.attemptNumber) =
        List.range' 1 n := by
  intro n
  induction n with
  | zero =>
    refine ⟨rfl, ?_⟩
    show (attemptsFor store userId lessonId quizId).map _ = _
    rw [hstart]
    rfl
  | succ n ih =>
    obtain ⟨hqz, hmap⟩ := ih
    have hquiz' : lookupQuiz (submitIter store quizId userId sub now n)
        quizId = some quiz := by
      unfold lookupQuiz at hquiz ⊢
      rw [hqz]
      exact hquiz
    have hstep := submit_step_attempts
      (submitIter store quizId userId sub now n) quizId userId sub now
      quiz lessonId hlid
    have hiter : submitIter store quizId userId sub now (n + 1) =
        submitStoreAfter (submitIter store quizId userId sub now n)
          quiz quizId userId sub now := by
      show (match submitQuizAttempt (submitIter store quizId userId sub now n)
          quizId userId sub now with
        | .ok (_, s') => s'
        | .error _ => submitIter store quizId userId sub now n) = _
      rw [submitQuizAttempt_ok (submitIter store quizId userId sub now n)
        quizId userId sub now quiz hquiz']
    have hlen : (attemptsFor (submitIter store quizId userId sub now n)
        userId lessonId quizId).length = n := by
      have := congrArg List.length hmap
      simpa using this
    refine ⟨?_, ?_⟩
    · rw [hiter, hstep.1, hqz]
    · rw [hiter, hstep.2, List.map_append, hmap, hlen, List.range'_concat]
      simp [attemptFor_attemptNumber, Nat.add_comm]

/-- C5: for a learner with no prior attempts for a quiz tied to a
lesson, `N` sequential submissions produce attempts numbered exactly
`1..N` in submission order — no gaps, no repeats — and each submission
appends exactly one attempt whose number is the count of that learner's
existing attempts for the quiz plus one; the number is computed by the
service, never taken from the submission payload (which carries no such
field). -/
theorem attempt_numbers_sequential (store : Store) (quizId userId : String)
    (sub : Submission) (now : ℕ) (quiz : Quiz) (lessonId : String)
    (N : ℕ)
    (hquiz : lookupQuiz store quizId = some quiz)
    (hlid : quiz.lessonId = some lessonId)
    (hstart : attemptsFor store userId lessonId quizId = []) :
    (attemptsFor (submitIter store quizId userId sub now N)
        userId lessonId quizId).map (fun a => a.attemptNumber) =
      List.range' 1 N ∧
    (∀ n, ∃ att,
      attemptsFor (submitIter store quizId userId sub now (n + 1))
          userId lessonId quizId =
        attemptsFor (submitIter store quizId userId sub now n)
            userId lessonId quizId ++ [att] ∧
      att.attemptNumber =
        (attemptsFor (submitIter store quizId userId sub now n)
          userId lessonId quizId).length + 1) := by
  have hinv := submitIter_attempts store quizId userId sub now quiz lessonId
    hquiz hlid hstart
  refine ⟨(hinv N).2, ?_⟩
  intro n
  have hquiz' : lookupQuiz (submitIter store quizId userId sub now n)
      quizId = some quiz := by
    unfold lookupQuiz at hquiz ⊢
    rw [(hinv n).1]
    exact hquiz
  have hiter : submitIter store quizId userId sub now (n + 1) =
      submitStoreAfter (submitIter store quizId userId sub now n)
        quiz quizId userId sub now := by
    show (match submitQuizAttempt (submitIter store quizId userId sub now n)
        quizId userId sub now with
      | .ok (_, s') => s'
      | .error _ => submitIter store quizId userId sub now n) = _
    rw [submitQuizAttempt_ok (submitIter store quizId userId sub now n)
      quizId userId sub now quiz hquiz']
  have hstep := submit_step_attempts
    (submitIter store quizId userId sub now n) quizId userId sub now
    quiz lessonId hlid
  exact ⟨attemptFor quiz quizId sub now
    ((attemptsFor (submitIter store quizId userId sub now n)
      userId lessonId quizId).length + 1),
    by rw [hiter]; exact hstep.2,
    attemptFor_attemptNumber quiz quizId sub now _⟩

/-- Witness for C5: two sequential submissions at the sample store give
attempt numbers `[1, 2]`. -/
theorem attempt_numbers_sequential_witness :
    (lookupQuiz sampleStore "quiz1" = some sampleQuiz ∧
     sampleQuiz.lessonId = some "lesson1" ∧
     attemptsFor sampleStore "u1" "lesson1" "quiz1" = []) ∧
    (attemptsFor (submitIter sampleStore "quiz1" "u1" sampleSubmission 1000 2)
        "u1" "lesson1" "quiz1").map (fun a => a.attemptNumber) =
      List.range' 1 2 :=
  ⟨⟨by decide, by decide, by decide⟩,
   (attempt_numbers_sequential sampleStore "quiz1" "u1" sampleSubmission 1000
     sampleQuiz "lesson1" 2 (by decide) (by decide) (by decide)).1⟩

end GyanSetu

namespace GyanSetu

/-! ### C6 -/

/-- The best-score update of the recording step is a binary max. -/
theorem pushAttempt_best (p : Progress) (att : Attempt) (now : ℕ)
    (ct : Option ℕ) :
    (pushAttempt p att now ct).bestQuizScore =
      max p.bestQuizScore att.percentage := by
  unfold pushAttempt
  dsimp only
  rcases le_or_lt att.percentage p.bestQuizScore with h | h
  · rw [if_neg (not_lt.mpr h), max_eq_left h]
  · rw [if_pos h, max_eq_right h.le]

/-- Folding the recording step appends the attempts and folds max over
their percentages. -/
theorem foldPush_spec (now : ℕ) (ct : Option ℕ) :
    ∀ (atts : List Attempt) (p : Progress),
      (atts.foldl (fun p a => pushAttempt p a now ct) p).quizAttempts =
        p.quizAttempts ++ atts ∧
      (atts.foldl (fun p a => pushAttempt p a now ct) p).bestQuizScore =
        atts.foldl (fun b a => max b a.percentage) p.bestQuizScore := by
  intro atts
  induction atts with
  | nil => intro p; simp
  | cons a atts ih =>
    intro p
    simp only [List.foldl_cons]
    obtain ⟨h1, h2⟩ := ih (pushAttempt p a now ct)
    constructor
    · rw [h1]
      show (p.quizAttempts ++ [a]) ++ atts = _
      simp
    · rw [h2, pushAttempt_best]

/-- A left max-fold started at `0` over nonnegative values is their
maximum (`0` for the empty list). -/
theorem foldl_max_zero_eq (l : List ℚ) (h : ∀ x ∈ l, 0 ≤ x) :
    l.foldl max 0 = l.max?.getD 0 := by
  cases l with
  | nil => rfl
  | cons a l =>
    rw [List.max?_cons', Option.getD_some, List.foldl_cons,
      max_eq_right (h a (List.mem_cons_self a l))]

/-- C6: a progress record built by the recording step holds exactly the
recorded attempts, its `bestQuizScore` is the maximum of their
percentages (`0` when none were recorded), and recording one more
attempt never decreases it. -/
theorem best_score_is_running_max (userId lessonId : String)
    (now₀ now : ℕ) (ct : Option ℕ) (atts : List Attempt)
    (hperc : ∀ a ∈ atts, 0 ≤ a.percentage) :
    (atts.foldl (fun p a => pushAttempt p a now ct)
        (freshProgress userId lessonId now₀)).quizAttempts = atts ∧
    (atts.foldl (fun p a => pushAttempt p a now ct)
        (freshProgress userId lessonId now₀)).bestQuizScore =
      ((atts.map (fun a => a.percentage)).max?).getD 0 ∧
    (∀ att,
      (pushAttempt
        (atts.foldl (fun p a => pushAttempt p a now ct)
          (freshProgress userId lessonId now₀)) att now ct).bestQuizScore ≥
       (atts.foldl (fun p a => pushAttempt p a now ct)
          (freshProgress userId lessonId now₀)).bestQuizScore) := by
  obtain ⟨h1, h2⟩ := foldPush_spec now ct atts (freshProgress userId lessonId now₀)
  refine ⟨by simpa using h1, ?_, ?_⟩
  · rw [h2]
    show atts.foldl (fun b a => max b a.percentage) 0 = _
    rw [← List.foldl_map (fun a => a.percentage) max atts 0]
    apply foldl_max_zero_eq
    intro x hx
    rw [List.mem_map] at hx
    obtain ⟨a, ha, rfl⟩ := hx
    exact hperc a ha
  · intro att
    rw [pushAttempt_best]
    exact le_max_left _ _

/-- Witness for C6 at two concrete attempts with percentages 100 and
50. -/
theorem best_score_is_running_max_witness :
    (∀ a ∈ [sampleAttemptA, sampleAttemptB], 0 ≤ a.percentage) ∧
    ([sampleAttemptA, sampleAttemptB].foldl
        (fun p a => pushAttempt p a 9 none)
        (freshProgress "u1" "lesson1" 7)).quizAttempts =
      [sampleAttemptA, sampleAttemptB] ∧
    ([sampleAttemptA, sampleAttemptB].foldl
        (fun p a => pushAttempt p a 9 none)
        (freshProgress "u1" "lesson1" 7)).bestQuizScore =
      (([sampleAttemptA, sampleAttemptB].map
        (fun a => a.percentage)).max?).getD 0 :=
  ⟨by
    intro a ha
    simp only [List.mem_cons, List.not_mem_nil, or_false] at ha
    rcases ha with rfl | rfl <;> norm_num [sampleAttemptA, sampleAttemptB],
   (best_score_is_running_max "u1" "lesson1" 7 9 none
     [sampleAttemptA, sampleAttemptB]
     (by
      intro a ha
      simp only [List.mem_cons, List.not_mem_nil, or_false] at ha
      rcases ha with rfl | rfl <;>
        norm_num [sampleAttemptA, sampleAttemptB])).1,
   (best_score_is_running_max "u1" "lesson1" 7 9 none
     [sampleAttemptA, sampleAttemptB]
     (by
      intro a ha
      simp only [List.mem_cons, List.not_mem_nil, or_false] at ha
      rcases ha with rfl | rfl <;>
        norm_num [sampleAttemptA, sampleAttemptB])).2.1⟩

end GyanSetu

namespace GyanSetu

/-! ### C7 -/

/-- A service-level update whose data carries no `totalPoints` keeps the
stored-total invariant: with questions supplied the total is recomputed,
without them both fields are left as stored. -/
theorem updateQuiz_preserves_totalPoints (store : Store) (quizId : String)
    (u : QuizUpdate) (q' : Quiz) (store' : Store)
    (htp : u.totalPoints = none)
    (hinv : ∀ q ∈ store.quizzes, q.totalPoints = sumPoints q.questions)
    (hup : updateQuiz store quizId u = (some q', store')) :
    q'.totalPoints = sumPoints q'.questions := by
  unfold updateQuiz at hup
  cases hqs : u.questions with
  | some qs =>
    rw [hqs] at hup
    dsimp only at hup
    cases hfind : store.quizzes.find? (fun q => q._id == quizId && !q.isDeleted) with
    | none => rw [hfind] at hup; simp at hup
    | some q0 =>
      rw [hfind] at hup
      dsimp only at hup
      simp only [Prod.mk.injEq, Option.some.injEq] at hup
      obtain ⟨hq', _⟩ := hup
      subst hq'
      simp [applySet, hqs]
  | none =>
    rw [hqs] at hup
    dsimp only at hup
    cases hfind : store.quizzes.find? (fun q => q._id == quizId && !q.isDeleted) with
    | none => rw [hfind] at hup; simp at hup
    | some q0 =>
      rw [hfind] at hup
      dsimp only at hup
      simp only [Prod.mk.injEq, Option.some.injEq] at hup
      obtain ⟨hq', _⟩ := hup
      subst hq'
      have hmem : q0 ∈ store.quizzes := List.mem_of_find?_eq_some hfind
      simp [applySet, hqs, htp]
      exact hinv q0 hmem

/-- C7: `totalPoints` is always the sum of the question points after a
create or an update, and a caller-supplied `totalPoints` is ignored on
both operations — on create because the service overrides it, on update
because the PATCH route's validation schema declares no such field and
strips it before the service runs. (For an update the pre-state is
assumed to satisfy the invariant, which create establishes.) -/
theorem totalPoints_always_recomputed :
    (∀ (data : QuizInput) (userId newId : String),
      (createQuiz data userId newId).totalPoints =
        sumPoints (createQuiz data userId newId).questions) ∧
    (∀ (data : QuizInput) (userId newId : String) (tp : Option ℚ),
      createQuiz { data with totalPoints := tp } userId newId =
        createQuiz data userId newId) ∧
    (∀ (store : Store) (quizId : String) (raw : RawQuizUpdate)
        (tp : Option ℚ),
      updateQuizEndpoint store quizId { raw with totalPoints := tp } =
        updateQuizEndpoint store quizId raw) ∧
    (∀ (store : Store) (quizId : String) (raw : RawQuizUpdate)
        (q' : Quiz) (store' : Store),
      (∀ q ∈ store.quizzes, q.totalPoints = sumPoints q.questions) →
      updateQuizEndpoint store quizId raw = (some q', store') →
      q'.totalPoints = sumPoints q'.questions) := by
  refine ⟨?_, ?_, ?_, ?_⟩
  · intro data userId newId
    unfold createQuiz
    cases hq : data.questions with
    | none => simp [hq]; rfl
    | some qs => simp [hq]
  · intro data userId newId tp
    rfl
  · intro store quizId raw tp
    rfl
  · intro store quizId raw q' store' hinv hup
    exact updateQuiz_preserves_totalPoints store quizId
      (parseUpdateBody raw) q' store' rfl hinv hup

/-- Witness for C7: creating from a payload with a bogus supplied total
of 999 stores the question sum, and updating `sampleQuiz` with a payload
carrying only a bogus total leaves the stored record intact. -/
theorem totalPoints_always_recomputed_witness :
    ((createQuiz sampleCreateInput "teacher1" "quizNew").totalPoints =
      sumPoints (createQuiz sampleCreateInput "teacher1" "quizNew").questions) ∧
    (createQuiz { sampleCreateInput with totalPoints := none }
        "teacher1" "quizNew" =
      createQuiz sampleCreateInput "teacher1" "quizNew") ∧
    (updateQuizEndpoint sampleStore "quiz1"
        { sampleRawUpdate with totalPoints := some 123 } =
      updateQuizEndpoint sampleStore "quiz1" sampleRawUpdate) ∧
    ((∀ q ∈ sampleStore.quizzes, q.totalPoints = sumPoints q.questions) ∧
     (updateQuizEndpoint sampleStore "quiz1" sampleRawUpdate =
       (some sampleQuiz, { quizzes := [sampleQuiz], progresses := [] })) ∧
     sampleQuiz.totalPoints = sumPoints sampleQuiz.questions) :=
  ⟨totalPoints_always_recomputed.1 sampleCreateInput "teacher1" "quizNew",
   totalPoints_always_recomputed.2.1 sampleCreateInput "teacher1" "quizNew" none,
   totalPoints_always_recomputed.2.2.1 sampleStore "quiz1" sampleRawUpdate
     (some 123),
   ⟨by
     intro q hq
     simp only [sampleStore, List.mem_cons, List.not_mem_nil, or_false] at hq
     subst hq
     norm_num [sampleQuiz, sumPoints, sampleChoiceQuestion, sampleFillQuestion],
    rfl,
    totalPoints_always_recomputed.2.2.2 sampleStore "quiz1" sampleRawUpdate
      sampleQuiz { quizzes := [sampleQuiz], progresses := [] }
      (by
        intro q hq
        simp only [sampleStore, List.mem_cons, List.not_mem_nil, or_false] at hq
        subst hq
        norm_num [sampleQuiz, sumPoints, sampleChoiceQuestion,
          sampleFillQuestion])
      rfl⟩⟩

end GyanSetu
